import Mathlib

/-!
Verification development for the health-check and graceful-shutdown core of
the phonic repository (Go packages `pkg/health` and `pkg/shutdown`).

The Go code is shallowly embedded: pure control flow becomes Lean functions,
the nondeterministic completion order of concurrently running checkers is
modelled by quantifying over permutations of the collected result list, and
wall-clock time in the shutdown path is modelled as a natural-number clock.
Wall-clock bookkeeping fields that no claim mentions (`Duration`,
`Timestamp`, `Uptime`) are not modelled. Go's `map[string]string` metadata
is modelled as an association list in literal insertion order.
-/

namespace Phonic

/-- `Status` from pkg/health/health.go: the health status of a component
(`healthy`, `unhealthy`, `unknown`). -/
inductive Status where
  | healthy
  | unhealthy
  | unknown
deriving DecidableEq, Repr

/-- `CheckResult` from pkg/health/health.go, with the wall-clock fields
(`Duration`, `Timestamp`) omitted as they are not referenced by any claim. -/
structure CheckResult where
  name : String
  status : Status
  message : String
  metadata : List (String × String)
deriving DecidableEq, Repr

/-- `HealthResponse` from pkg/health/health.go, with the wall-clock fields
(`Timestamp`, `Uptime`) omitted. -/
structure HealthResponse where
  status : Status
  service : String
  version : String
  checks : List CheckResult
deriving DecidableEq, Repr

/-- The `Checker` interface: `Check(ctx) CheckResult`.  The execution
context is abstracted to a type parameter `Ctx`. -/
def Checker (Ctx : Type) : Type := Ctx → CheckResult

/-- The overall-status loop of `Manager.CheckHealth` (health.go lines
126-132): start `healthy`, switch to `unhealthy` and break at the first
check whose status is `unhealthy`. -/
def overallStatus : List CheckResult → Status
  | [] => .healthy
  | c :: rest => if c.status = .unhealthy then .unhealthy else overallStatus rest

/-- The fan-out/collect body of `Manager.CheckHealth` (health.go lines
99-123): each registered checker runs and its result's `Name` field is
overwritten with the registration key (`result.Name = n`, line 109).
The snapshot of the registry is a list of (name, checker) pairs; the
nondeterministic channel-collection order is modelled separately, by
quantifying over permutations of this list. -/
def checkResults {Ctx : Type} (checkers : List (String × Checker Ctx)) (ctx : Ctx) :
    List CheckResult :=
  checkers.map (fun p => { p.2 ctx with name := p.1 })

/-- `Manager.CheckHealth` (health.go lines 89-149): run every registered
checker, collect the results (here in `collected` order, an arbitrary
permutation of `checkResults`), and aggregate the overall status. -/
def checkHealth (serviceName version : String) (collected : List CheckResult) :
    HealthResponse :=
  { status := overallStatus collected
    service := serviceName
    version := version
    checks := collected }

/-- `DatabaseChecker.Check`'s possible probe outcomes: `db.PingContext`
either fails with an error or succeeds, in which case `db.Stats()` reports
pool occupancy counts. -/
inductive DbOutcome where
  | pingFailure (err : String)
  | ok (openConns inUse idle : Nat)
deriving DecidableEq, Repr

/-- `DatabaseChecker.Check` (health.go lines 217-249).  The struct literals
in the source omit `Name`, so it is Go's zero value `""`. -/
def databaseCheck : DbOutcome → CheckResult
  | .pingFailure err =>
    { name := ""
      status := .unhealthy
      message := "Database ping failed: " ++ err
      metadata := [] }
  | .ok openConns inUse idle =>
    { name := ""
      status := .healthy
      message := "Database connection healthy"
      metadata := [("open_connections", toString openConns),
                   ("in_use", toString inUse),
                   ("idle", toString idle)] }

/-- `RedisChecker.Check`'s possible probe outcomes: `client.Ping` either
fails or returns a response string; on success `client.Info` may or may not
succeed. -/
inductive RedisOutcome where
  | pingFailure (err : String)
  | pong (resp : String) (infoOk : Bool)
deriving DecidableEq, Repr

/-- `RedisChecker.Check` (health.go lines 266-308). -/
def redisCheck : RedisOutcome → CheckResult
  | .pingFailure err =>
    { name := ""
      status := .unhealthy
      message := "Redis ping failed: " ++ err
      metadata := [] }
  | .pong resp infoOk =>
    if resp ≠ "PONG" then
      { name := ""
        status := .unhealthy
        message := "Redis ping returned unexpected response: " ++ resp
        metadata := [] }
    else
      { name := ""
        status := .healthy
        message := "Redis connection healthy"
        metadata := ("ping_response", resp) ::
          (if infoOk then [("info_available", "true")] else []) }

/-- `MoshiChecker.Check`'s possible probe outcomes:
`http.NewRequestWithContext` may fail, `client.Do` may fail at the
transport level, or a response arrives bearing a status code and a
Content-Type header. -/
inductive MoshiOutcome where
  | requestFailure (err : String)
  | transportFailure (err : String)
  | response (statusCode : Nat) (contentType : String)
deriving DecidableEq, Repr

/-- `MoshiChecker.Check` (health.go lines 327-387). -/
def moshiCheck (serviceURL : String) : MoshiOutcome → CheckResult
  | .requestFailure err =>
    { name := ""
      status := .unhealthy
      message := "Failed to create request: " ++ err
      metadata := [] }
  | .transportFailure err =>
    { name := ""
      status := .unhealthy
      message := "Moshi service unreachable: " ++ err
      metadata := [] }
  | .response code contentType =>
    let md := [("service_url", serviceURL),
               ("status_code", toString code),
               ("content_type", contentType)]
    if 200 ≤ code ∧ code < 300 then
      { name := ""
        status := .healthy
        message := "Moshi service responding"
        metadata := md }
    else
      { name := ""
        status := .unhealthy
        message := "Moshi service returned status " ++ toString code
        metadata := md }

/-- `CustomChecker.Check` (health.go lines 406-424): the wrapped
`checkFunc` returns `(healthy, message, metadata)`. -/
def customCheck (result : Bool × String × List (String × String)) : CheckResult :=
  { name := ""
    status := if result.1 then .healthy else .unhealthy
    message := result.2.1
    metadata := result.2.2 }

/-- A Go `http.ResponseWriter` as the caller observes it: the status line
(set by the first `WriteHeader`; later calls are superfluous and ignored)
and the accumulated body. -/
structure ResponseWriter where
  status : Option Nat
  body : String
deriving DecidableEq, Repr

/-- A fresh response writer: no status line sent, empty body. -/
def ResponseWriter.empty : ResponseWriter := { status := none, body := "" }

/-- `w.WriteHeader(code)`: only the first call sets the status; Go logs
"superfluous response.WriteHeader call" and ignores any later call. -/
def writeHeader (w : ResponseWriter) (code : Nat) : ResponseWriter :=
  match w.status with
  | some _ => w
  | none => { w with status := some code }

/-- `w.Write(s)`: appends to the body; if no header was written yet, Go
implicitly sends status 200 first. -/
def write (w : ResponseWriter) (s : String) : ResponseWriter :=
  match w.status with
  | some _ => { w with body := w.body ++ s }
  | none => { status := some 200, body := w.body ++ s }

/-- Go's `http.Error(w, msg, code)`: calls `w.WriteHeader(code)` (a no-op
if a header was already sent) then writes `msg` followed by a newline. -/
def httpError (w : ResponseWriter) (msg : String) (code : Nat) : ResponseWriter :=
  write (writeHeader w code) (msg ++ "\n")

/-- `Manager.LivenessHandler` (health.go lines 194-200): ignores the
registry and the request entirely. -/
def livenessHandler {Ctx : Type} (checkers : List (String × Checker Ctx)) (ctx : Ctx) :
    ResponseWriter :=
  write (writeHeader ResponseWriter.empty 200) "alive"

/-- `Manager.ReadinessHandler` (health.go lines 176-191): runs
`CheckHealth` and answers 200 "ready" when the aggregate is healthy, else
503 "not ready".  `collected` is the result list of the pass. -/
def readinessHandler (serviceName version : String) (collected : List CheckResult) :
    ResponseWriter :=
  let health := checkHealth serviceName version collected
  if health.status = .healthy then
    write (writeHeader ResponseWriter.empty 200) "ready"
  else
    write (writeHeader ResponseWriter.empty 503) "not ready"

/-- `Manager.HTTPHandler` (health.go lines 152-173): runs `CheckHealth`,
writes a 200 or 503 header according to the aggregate status, then JSON-
encodes the full response into the body; if encoding fails it calls
`http.Error(w, "Internal Server Error", 500)`.  The JSON encoder is
abstracted as a fallible function `enc`. -/
def httpHandler (enc : HealthResponse → Option String)
    (serviceName version : String) (collected : List CheckResult) : ResponseWriter :=
  let health := checkHealth serviceName version collected
  let w := ResponseWriter.empty
  let w := if health.status = .healthy then writeHeader w 200 else writeHeader w 503
  match enc health with
  | some s => write w s
  | none => httpError w "Internal Server Error" 500

/-- A shutdown hook from pkg/shutdown/shutdown.go, abstracted to whether
its invocation returns an error. -/
structure Hook where
  fails : Bool
deriving DecidableEq, Repr

/-- The shutdown `Manager` state (shutdown.go lines 21-26): an ordered
sequence of hooks and the configured timeout (wall-clock bookkeeping and
the logger are not modelled here; the struct has no further fields — in
particular no started/latch flag). -/
structure ShutdownManager where
  hooks : List Hook
deriving DecidableEq, Repr

/-- `Manager.AddHook` (shutdown.go lines 38-42): appends to the sequence. -/
def addHook (m : ShutdownManager) (h : Hook) : ShutdownManager :=
  { m with hooks := m.hooks ++ [h] }

/-- The downward loop of `Manager.Shutdown` (shutdown.go lines 68-73):
`for i := len(hooks)-1; i >= 0; i--` invokes `hooks[i]` and, on error,
logs it with `hook_index` `i`.  The trace records, in execution order,
each invoked index paired with whether that hook failed. -/
def shutdownLoop (hooks : List Hook) : Nat → List (Nat × Bool)
  | 0 => []
  | i + 1 => (i, (hooks.getD i { fails := false }).fails) :: shutdownLoop hooks i

/-- The full execution trace of one `Manager.Shutdown` call
(shutdown.go lines 56-76). -/
def shutdownTrace (hooks : List Hook) : List (Nat × Bool) :=
  shutdownLoop hooks hooks.length

/-- One shutdown trigger (a termination signal via `Listen` /
`WaitForShutdown`, or a direct `Shutdown` call): each trigger invokes
`Manager.Shutdown`, which appends the full hook-execution trace to the
observable log — there is no latch consulted or set. -/
def triggerShutdown (m : ShutdownManager) (log : List (Nat × Bool)) :
    List (Nat × Bool) :=
  log ++ shutdownTrace m.hooks

/-- A shutdown hook for the timed model: the wall-clock time its
invocation consumes (a hook that honors the context deadline consumes
little; one that ignores it may consume more than the budget). -/
structure TimedHook where
  duration : Nat
deriving DecidableEq, Repr

/-- The downward loop of `Manager.Shutdown` with an explicit clock: each
entry records the invoked index and the time at which that hook was
started.  The loop itself never consults the deadline — it only passes
the deadline-bearing context to each hook. -/
def shutdownTimedLoop (hooks : List TimedHook) : Nat → Nat → List (Nat × Nat)
  | 0, _ => []
  | i + 1, now =>
    (i, now) :: shutdownTimedLoop hooks i (now + (hooks.getD i { duration := 0 }).duration)

/-- Timed model of `Manager.Shutdown` (shutdown.go lines 56-76): the
context deadline is `timeout` (from `context.WithTimeout`); the trace
lists each hook's index with its start time.  `Shutdown` returns (the
manager is Done) when the loop has visited every hook. -/
def shutdownTimed (timeout : Nat) (hooks : List TimedHook) : List (Nat × Nat) :=
  shutdownTimedLoop hooks hooks.length 0

/-- `overallStatus` never returns `unknown`: it is `healthy` or `unhealthy`. -/
theorem overallStatus_eq_ite (checks : List CheckResult) :
    overallStatus checks =
      if checks.any (fun c => c.status = .unhealthy) then .unhealthy else .healthy := by
  induction checks with
  | nil => simp [overallStatus]
  | cons c rest ih =>
    by_cases h : c.status = Status.unhealthy
    · simp [overallStatus, h]
    · simp [overallStatus, h, ih]

/-- C1: For every result of CheckHealth (runAll), over any multiset of
checker statuses including Unknown, the aggregate `status` field is
`unhealthy` if and only if at least one contained CheckResult has status
`unhealthy`; otherwise it is `healthy` (in particular, with zero checkers
or with only Unknown checks it is `healthy`). -/
theorem checkHealth_status_unhealthy_iff (serviceName version : String)
    (collected : List CheckResult) :
    ((checkHealth serviceName version collected).status = .unhealthy ↔
      ∃ c ∈ collected, c.status = .unhealthy) ∧
    ((checkHealth serviceName version collected).status = .unhealthy ∨
      (checkHealth serviceName version collected).status = .healthy) := by
  constructor
  · rw [checkHealth, overallStatus_eq_ite]
    simp only [List.any_eq_true, decide_eq_true_eq]
    constructor
    · intro h
      by_contra hno
      push_neg at hno
      rw [if_neg] at h
      · exact Status.noConfusion h
      · rintro ⟨c, hc, hcs⟩
        exact hno c hc hcs
    · rintro ⟨c, hc, hcs⟩
      rw [if_pos ⟨c, hc, hcs⟩]
  · rw [checkHealth, overallStatus_eq_ite]
    by_cases h : collected.any (fun c => c.status = .unhealthy)
    · left; simp [h]
    · right; simp [h]

/-- C2: For every registry state with N registered checkers (N distinct
names), CheckHealth returns a HealthResponse whose Checks sequence contains
exactly N CheckResults, exactly one bearing each registered name,
regardless of the order in which individual checkers complete (modelled by
an arbitrary permutation `collected` of the computed result list). -/
theorem runAll_one_result_per_name {Ctx : Type} (checkers : List (String × Checker Ctx))
    (ctx : Ctx) (collected : List CheckResult)
    (hperm : collected.Perm (checkResults checkers ctx))
    (hnodup : (checkers.map Prod.fst).Nodup) :
    (checkHealth "s" "v" collected).checks.length = checkers.length ∧
    ∀ n ∈ checkers.map Prod.fst,
      ((checkHealth "s" "v" collected).checks.filter (fun c => c.name = n)).length = 1 := by
  constructor
  · rw [checkHealth]
    rw [hperm.length_eq, checkResults, List.length_map]
  · intro n hn
    rw [checkHealth]
    rw [← List.countP_eq_length_filter]
    rw [hperm.countP_eq]
    rw [checkResults, List.countP_map]
    have h1 : ((fun c => decide (c.name = n)) ∘ fun p : String × Checker Ctx =>
        { p.2 ctx with name := p.1 }) = fun p : String × Checker Ctx => decide (p.1 = n) := rfl
    rw [h1]
    have h2 : (checkers.countP fun p : String × Checker Ctx => decide (p.1 = n)) =
        ((checkers.map Prod.fst).countP fun s => decide (s = n)) := by
      rw [List.countP_map]; rfl
    rw [h2]
    have h3 : ((checkers.map Prod.fst).countP fun s => decide (s = n)) =
        (checkers.map Prod.fst).count n := by
      rw [List.count_eq_countP]
      congr 1
    rw [h3]
    exact List.count_eq_one_of_mem hnodup hn

/-- Witness for C2 at a concrete two-checker registry whose results are
collected in the opposite of registration order. -/
theorem runAll_one_result_per_name_witness :
    (checkHealth "s" "v"
        [{ name := "b", status := Status.healthy, message := "ok", metadata := [] },
         { name := "a", status := Status.healthy, message := "ok", metadata := [] }]).checks.length = 2 ∧
    ∀ n ∈ ["a", "b"],
      ((checkHealth "s" "v"
        [{ name := "b", status := Status.healthy, message := "ok", metadata := [] },
         { name := "a", status := Status.healthy, message := "ok", metadata := [] }]).checks.filter
          (fun c => c.name = n)).length = 1 :=
  @runAll_one_result_per_name Unit
    [("a", fun _ => { name := "", status := Status.healthy, message := "ok", metadata := [] }),
     ("b", fun _ => { name := "", status := Status.healthy, message := "ok", metadata := [] })]
    ()
    [{ name := "b", status := Status.healthy, message := "ok", metadata := [] },
     { name := "a", status := Status.healthy, message := "ok", metadata := [] }]
    (by decide) (by decide)

/-- C10: the registry overwrites each result's Name with the registration
key; every built-in checker variant leaves Name empty, so registering one
checker instance under two names yields two results bearing the two
registered names. -/
theorem checkHealth_name_from_registration {Ctx : Type}
    (checkers : List (String × Checker Ctx)) (ctx : Ctx) :
    ((checkResults checkers ctx).map CheckResult.name = checkers.map Prod.fst) ∧
    (∀ (c : Checker Ctx) (n₁ n₂ : String),
        (checkResults [(n₁, c), (n₂, c)] ctx).map CheckResult.name = [n₁, n₂]) ∧
    (∀ o, (databaseCheck o).name = "") ∧
    (∀ o, (redisCheck o).name = "") ∧
    (∀ url o, (moshiCheck url o).name = "") ∧
    (∀ r, (customCheck r).name = "") := by
  refine ⟨?_, ?_, ?_, ?_, ?_, ?_⟩
  · simp [checkResults]
  · intro c n₁ n₂; rfl
  · intro o; cases o <;> rfl
  · intro o
    cases o with
    | pingFailure err => rfl
    | pong resp infoOk =>
      rw [redisCheck]
      split <;> rfl
  · intro url o
    cases o with
    | requestFailure err => rfl
    | transportFailure err => rfl
    | response code contentType =>
      rw [moshiCheck]
      split <;> rfl
  · intro r; rfl

/-- Each recursive step of the shutdown loop visits index `i` and records
whether `hooks[i]` failed; the visited indices are `n-1, ..., 0`. -/
theorem shutdownLoop_eq_map (hooks : List Hook) (n : Nat) :
    shutdownLoop hooks n =
      ((List.range n).reverse).map
        (fun i => (i, (hooks.getD i { fails := false }).fails)) := by
  induction n with
  | zero => rfl
  | succ i ih =>
    rw [shutdownLoop, ih, List.range_succ, List.reverse_append]
    rfl

/-- C4: Shutdown executes hooks strictly sequentially in reverse
registration order (index n-1 first, index 0 last); a failing hook is
logged with its registration index and execution continues, so every
hook's index appears in the trace regardless of failures, and the error
log holds exactly the failing indices in execution order. -/
theorem shutdown_hooks_reverse_order (hooks : List Hook) :
    shutdownTrace hooks =
      ((List.range hooks.length).reverse).map
        (fun i => (i, (hooks.getD i { fails := false }).fails)) ∧
    (shutdownTrace hooks).map Prod.fst = (List.range hooks.length).reverse ∧
    ((shutdownTrace hooks).filter (fun e => e.2)).map Prod.fst =
      ((List.range hooks.length).reverse).filter
        (fun i => (hooks.getD i { fails := false }).fails) := by
  have h := shutdownLoop_eq_map hooks hooks.length
  have h1 : (Prod.fst ∘ fun i => (i, (hooks.getD i { fails := false }).fails)) =
      fun i : Nat => i := rfl
  have h2 : ((fun e : Nat × Bool => e.2) ∘
      fun i => (i, (hooks.getD i { fails := false }).fails)) =
      fun i => (hooks.getD i { fails := false }).fails := rfl
  refine ⟨h, ?_, ?_⟩
  · rw [shutdownTrace, h, List.map_map, h1, List.map_id']
  · rw [shutdownTrace, h, List.filter_map, List.map_map, h1, h2, List.map_id']

/-- Counterexample to C3: with a single registered hook, a second shutdown
trigger is not a no-op — it appends a second full execution of the hook
sequence to the log, because the manager holds no started latch. -/
theorem shutdown_second_trigger_not_noop :
    triggerShutdown { hooks := [{ fails := false }] }
        (triggerShutdown { hooks := [{ fails := false }] } []) ≠
      triggerShutdown { hooks := [{ fails := false }] } [] := by decide

/-- C3 amended: the shutdown manager state holds no started latch; every
trigger (signal-driven or direct) executes the entire hook sequence again,
appending a full trace to the log, so with a nonempty hook list no
subsequent trigger is a no-op. -/
theorem shutdown_every_trigger_runs_hooks (m : ShutdownManager)
    (log : List (Nat × Bool)) :
    triggerShutdown m log = log ++ shutdownTrace m.hooks ∧
    (m.hooks ≠ [] → triggerShutdown m log ≠ log) := by
  refine ⟨rfl, ?_⟩
  intro hne heq
  have hlen : (triggerShutdown m log).length = log.length := by rw [heq]
  rw [triggerShutdown, List.length_append] at hlen
  have htr : (shutdownTrace m.hooks).length = m.hooks.length := by
    rw [shutdownTrace, shutdownLoop_eq_map, List.length_map, List.length_reverse,
      List.length_range]
  rw [htr] at hlen
  have : m.hooks.length = 0 := by omega
  exact hne (List.length_eq_zero.mp this)

/-- Witness for the amended C3 at a concrete one-hook manager. -/
theorem shutdown_every_trigger_runs_hooks_witness :
    triggerShutdown { hooks := [{ fails := true }] } [] =
        [] ++ shutdownTrace [{ fails := true }] ∧
    ([{ fails := true }] ≠ ([] : List Hook) →
      triggerShutdown { hooks := [{ fails := true }] } [] ≠ []) :=
  shutdown_every_trigger_runs_hooks { hooks := [{ fails := true }] } []

/-- Counterexample to C5: with timeout 1 and two registered hooks whose
later-registered hook consumes 2 time units (ignoring the context), the
earlier-registered hook is still started, at time 2, after the shared
deadline (1) has elapsed. -/
theorem shutdown_starts_hook_after_deadline :
    (0, 2) ∈ shutdownTimed 1 [{ duration := 0 }, { duration := 2 }] ∧
    ¬ (∀ e ∈ shutdownTimed 1 [{ duration := 0 }, { duration := 2 }], e.2 ≤ 1) := by
  constructor
  · decide
  · decide

/-- C5 amended: Shutdown derives a deadline-bearing context from the
configured timeout and passes it to every hook, but the loop itself never
consults the deadline: every registered hook is started, in reverse
registration order, regardless of how much time earlier hooks consumed,
and the trace is independent of the timeout; Shutdown returns (Done) only
after the loop has visited the last hook. -/
theorem shutdownTimed_starts_every_hook (timeout : Nat) (hooks : List TimedHook) :
    (shutdownTimed timeout hooks).map Prod.fst = (List.range hooks.length).reverse ∧
    shutdownTimed timeout hooks = shutdownTimed 0 hooks := by
  refine ⟨?_, rfl⟩
  rw [shutdownTimed]
  have key : ∀ (n : Nat) (now : Nat),
      (shutdownTimedLoop hooks n now).map Prod.fst = (List.range n).reverse := by
    intro n
    induction n with
    | zero => intro now; rfl
    | succ i ih =>
      intro now
      rw [shutdownTimedLoop, List.map_cons, ih, List.range_succ, List.reverse_append]
      rfl
  exact key hooks.length 0

/-- C6: the liveness handler returns HTTP 200 with body "alive" without
consulting the registry: its response is identical for any two registry
states and requests. -/
theorem livenessHandler_const {Ctx : Type}
    (checkers checkers' : List (String × Checker Ctx)) (ctx ctx' : Ctx) :
    livenessHandler checkers ctx = { status := some 200, body := "alive" } ∧
    livenessHandler checkers ctx = livenessHandler checkers' ctx' :=
  ⟨rfl, rfl⟩

/-- C7: the readiness handler answers 200 "ready" exactly when the
aggregate status of the health pass is healthy, and 503 "not ready"
exactly when it is not; the body is one of these two short tokens, never
the full report. -/
theorem readinessHandler_iff (serviceName version : String)
    (collected : List CheckResult) :
    (readinessHandler serviceName version collected =
        { status := some 200, body := "ready" } ↔
      (checkHealth serviceName version collected).status = .healthy) ∧
    (readinessHandler serviceName version collected =
        { status := some 503, body := "not ready" } ↔
      (checkHealth serviceName version collected).status ≠ .healthy) ∧
    (readinessHandler serviceName version collected =
        { status := some 200, body := "ready" } ∨
      readinessHandler serviceName version collected =
        { status := some 503, body := "not ready" }) := by
  rw [readinessHandler]
  by_cases h : (checkHealth serviceName version collected).status = Status.healthy
  · rw [if_pos h]
    refine ⟨⟨fun _ => h, fun _ => rfl⟩, ⟨fun heq => ?_, fun hne => absurd h hne⟩, Or.inl rfl⟩
    exact absurd (congrArg ResponseWriter.body heq) (by decide)
  · rw [if_neg h]
    refine ⟨⟨fun heq => ?_, fun hh => absurd hh h⟩, ⟨fun _ => h, fun _ => rfl⟩, Or.inr rfl⟩
    exact absurd (congrArg ResponseWriter.body heq) (by decide)

/-- Witness for C7 at a concrete unhealthy pass. -/
theorem readinessHandler_iff_witness :
    readinessHandler "s" "v"
        [{ name := "db", status := Status.unhealthy, message := "down", metadata := [] }] =
      { status := some 503, body := "not ready" } :=
  (readinessHandler_iff "s" "v"
    [{ name := "db", status := Status.unhealthy, message := "down", metadata := [] }]).2.1.mpr
    (by decide)

/-- C8 at the failing input (code bug): when the aggregate is healthy and
JSON encoding of the report fails, the caller observes transport status
200 — not 500 — because `WriteHeader(200)` already committed the status
line before `http.Error(w, _, 500)` ran; only the body carries the error
text. -/
theorem httpHandler_encode_failure_no_500 :
    (httpHandler (fun _ => none) "s" "v" []).status = some 200 ∧
    (httpHandler (fun _ => none) "s" "v" []).body = "Internal Server Error\n" ∧
    (httpHandler (fun _ => none) "s" "v" []).status ≠ some 500 := by
  refine ⟨rfl, rfl, ?_⟩
  intro h
  exact absurd (Option.some.inj h) (by decide)

/-- C9: the RemoteService (Moshi) checker is healthy exactly on a received
response with status code in [200,300); every other outcome — any other
status code, a transport failure, or a request-construction failure — is
unhealthy with a nonempty human-readable message, never an uncaught
fault; when a response is received, the metadata records the service URL,
the status code and the content type. -/
theorem moshiCheck_spec (url : String) (o : MoshiOutcome) :
    ((moshiCheck url o).status = .healthy ↔
      ∃ code contentType, o = .response code contentType ∧ 200 ≤ code ∧ code < 300) ∧
    ((moshiCheck url o).status = .healthy ∨ (moshiCheck url o).status = .unhealthy) ∧
    (moshiCheck url o).message ≠ "" ∧
    (∀ code contentType, o = .response code contentType →
      (moshiCheck url o).metadata =
        [("service_url", url), ("status_code", toString code),
         ("content_type", contentType)]) := by
  cases o with
  | requestFailure err =>
    refine ⟨⟨fun h => absurd h (by simp [moshiCheck]), ?_⟩, Or.inr rfl, ?_, ?_⟩
    · rintro ⟨code, ct, h, -⟩; exact MoshiOutcome.noConfusion h
    · intro h
      have h2 : "Failed to create request: " ++ err = "" := h
      have h3 := congrArg String.length h2
      rw [String.length_append] at h3
      have h4 : 0 < "Failed to create request: ".length := by decide
      have h5 : "".length = 0 := rfl
      omega
    · intro code ct h; exact MoshiOutcome.noConfusion h
  | transportFailure err =>
    refine ⟨⟨fun h => absurd h (by simp [moshiCheck]), ?_⟩, Or.inr rfl, ?_, ?_⟩
    · rintro ⟨code, ct, h, -⟩; exact MoshiOutcome.noConfusion h
    · intro h
      have h2 : "Moshi service unreachable: " ++ err = "" := h
      have h3 := congrArg String.length h2
      rw [String.length_append] at h3
      have h4 : 0 < "Moshi service unreachable: ".length := by decide
      have h5 : "".length = 0 := rfl
      omega
    · intro code ct h; exact MoshiOutcome.noConfusion h
  | response code ct =>
    by_cases hr : 200 ≤ code ∧ code < 300
    · refine ⟨⟨fun _ => ⟨code, ct, rfl, hr⟩, fun _ => ?_⟩, Or.inl ?_, ?_, ?_⟩
      · rw [moshiCheck]; simp [hr]
      · rw [moshiCheck]; simp [hr]
      · rw [moshiCheck]; simp [hr]
      · intro c t h
        obtain ⟨rfl, rfl⟩ : code = c ∧ ct = t := by
          cases h; exact ⟨rfl, rfl⟩
        rw [moshiCheck]; simp [hr]
    · refine ⟨⟨fun h => ?_, ?_⟩, Or.inr ?_, ?_, ?_⟩
      · rw [moshiCheck] at h; simp [hr] at h
      · rintro ⟨c, t, h, hc⟩
        obtain ⟨rfl, rfl⟩ : code = c ∧ ct = t := by
          cases h; exact ⟨rfl, rfl⟩
        exact absurd hc hr
      · rw [moshiCheck]; simp [hr]
      · rw [moshiCheck]; simp only [hr, if_false]
        intro h
        have h3 := congrArg String.length h
        rw [String.length_append] at h3
        have h4 : 0 < "Moshi service returned status ".length := by decide
        have h5 : "".length = 0 := rfl
        omega
      · intro c t h
        obtain ⟨rfl, rfl⟩ : code = c ∧ ct = t := by
          cases h; exact ⟨rfl, rfl⟩
        rw [moshiCheck]; simp [hr]

/-- Witness for C9 at a concrete 204 response. -/
theorem moshiCheck_spec_witness :
    (moshiCheck "moshi:8080" (MoshiOutcome.response 204 "application/json")).status =
      Status.healthy :=
  (moshiCheck_spec "moshi:8080" (MoshiOutcome.response 204 "application/json")).1.mpr
    ⟨204, "application/json", rfl, by decide, by decide⟩

end Phonic
